import Mathlib

/-!
Shallow embedding of the mmsd4ofono daemon (FuriLabs/mmsd4ofono) for checking
its natural-language specification.  Each definition is translated from the
Python source: `src/main.py`, `src/mmsd/ofono_push_notification.py`,
`src/mmsd/ofono_mms_service.py`, `src/mmsd/ofono.py`.
Byte strings are modelled as `List Nat`, Python dictionaries as association
lists, and the external MMS codec (`mmsdecoder`) as an abstract decoded
structure, matching the spec's treatment of the codec as an external
collaborator.
-/

/-! ## Message tokens
`str(uuid4()).replace('-', '1')` — the identical expression appears at
`ofono_mms_service.py:215` (`SendMessage`), `ofono_mms_service.py:236`
(`SendMessage2`) and `ofono_push_notification.py:210`
(`process_mms_content`).  A UUID string is modelled as its character list;
Python's single-character `str.replace` is a character-wise map. -/

def generateToken (u : List Char) : List Char :=
  u.map (fun c => if c = '-' then '1' else c)

/-- Python `str.split(sep)` for a one-character separator, over character
lists (the split always yields one more piece than there are separators). -/
def splitOnCharAux (sep : Char) : List Char → List Char → List (List Char)
  | [], acc => [acc.reverse]
  | c :: rest, acc =>
    if c = sep then acc.reverse :: splitOnCharAux sep rest []
    else splitOnCharAux sep rest (c :: acc)

def splitOnChar (sep : Char) (s : List Char) : List (List Char) :=
  splitOnCharAux sep s []

/-- Python `str.strip()`: remove leading and trailing whitespace. -/
def pyStrip (s : List Char) : List Char :=
  ((s.dropWhile Char.isWhitespace).reverse.dropWhile Char.isWhitespace).reverse

/-- The bus object path built for a stored message, `main.py:236`:
`f'/org/ofono/mms/{uuid}'`. -/
def messageObjectPath (token : List Char) : List Char :=
  "/org/ofono/mms/".data ++ token

/-- The character set of `str(uuid4())` output: lowercase hexadecimal
digits and the dash. -/
def isUuidChar (c : Char) : Bool :=
  c ∈ ['0', '2', '4', '6', '8', 'a', 'c', 'e',
       '1', '3', '5', '7', '9', 'b', 'd', 'f', '-']

/-- Modelled from the spec: a well-formed bus object path (D-Bus rules, used
by the spec's phrase "the derived bus object path ... is well-formed"): it
begins with `/`, and splitting on `/` yields a leading empty component
followed by nonempty components made only of `[A-Za-z0-9_]` characters. -/
def pathElementChar (c : Char) : Bool :=
  c.isAlpha || c.isDigit || c = '_'

def validObjectPath (p : List Char) : Bool :=
  match p with
  | [] => false
  | c :: rest =>
    c = '/' &&
      (let comps := splitOnChar '/' rest
       comps.all (fun comp => !comp.isEmpty && comp.all pathElementChar))

/-! ## Context activator (`main.py:253-282`)
`activate_mms_context` returns `True` when an mms-typed context's
`Active=true` property-set succeeds, `False` when an exception escapes the
enumeration, and `None` when no mms context is found.  `force_activate_context`
loops: it returns only when the attempt returned `True`, otherwise it sleeps 2
seconds and retries; an exception from the attempt is caught and also leads to
the 2-second sleep and retry.  The outcome of attempt number `i` is supplied
by an oracle. -/

inductive ActOutcome where
  | ok : ActOutcome
  | failed : ActOutcome
  | noContext : ActOutcome
  | err : ActOutcome
deriving DecidableEq

/-- `await asyncio.sleep(2)` at `main.py:262`: the delay between activation
attempts. -/
def activateRetryDelay : Nat := 2

/-- `force_activate_context` (`main.py:253-262`): whether the retry loop is
still running after `n` attempts whose outcomes are given by `oracle`.
The loop exits only when an attempt returns `True` (`ActOutcome.ok`). -/
def forceActivateRunning (oracle : Nat → ActOutcome) : Nat → Bool
  | 0 => true
  | n + 1 => forceActivateRunning oracle n && !(oracle n = ActOutcome.ok : Bool)

/-- `context_active_changed` (`main.py:264-269`): whether the property-change
handler invokes `force_activate_context`.  It does so exactly when the changed
property is `"Active"` and its new value is `False`. -/
def contextActiveChangedTriggers (property : String) (propvalue : Bool) : Bool :=
  property = "Active" && propvalue = false

/-! ## HTTP fetch and dispatch (`ofono_push_notification.py:183-207, 99-105`)
`fetch_mms_content` returns the body bytes on HTTP status 200 and `None`
otherwise (non-200 status, or any exception — both the proxied and the
unproxied branch behave identically in this respect).  `ReceiveNotification`
then tests the result for Python truthiness: `None` and the empty byte string
are falsy. -/

inductive HttpOutcome where
  | resp : Nat → List Nat → HttpOutcome
  | exc : HttpOutcome

def fetch_mms_content : HttpOutcome → Option (List Nat)
  | HttpOutcome.resp status body => if status = 200 then some body else none
  | HttpOutcome.exc => none

/-- A queued push event awaiting retry: `(transaction_id, content_location,
sender, info)` as enqueued at `ofono_push_notification.py:105` and
`ofono_push_notification.py:46`. -/
structure PendingItem where
  tid : Option String
  loc : String
  sender : Option String
  info : List (String × String)
deriving DecidableEq, Repr

inductive ReceiveAction where
  | processed : List Nat → ReceiveAction
  | enqueued : PendingItem → ReceiveAction
deriving DecidableEq

/-- The tail of `ReceiveNotification` (`ofono_push_notification.py:99-105`):
`if response_content:` — Python truthiness, so `None` and `b''` both take the
enqueue branch; a truthy body is handed to `process_mms_content`. -/
def receiveDispatch (item : PendingItem) (response_content : Option (List Nat)) :
    ReceiveAction :=
  match response_content with
  | some body => if body.isEmpty then ReceiveAction.enqueued item
                 else ReceiveAction.processed body
  | none => ReceiveAction.enqueued item

/-- `ReceiveNotification` after header extraction: fetch then dispatch. -/
def receiveNotificationStep (outcome : HttpOutcome) (item : PendingItem) :
    ReceiveAction :=
  receiveDispatch item (fetch_mms_content outcome)

/-! ## Recipient derivation (`ofono_push_notification.py:256-269`) and
message export (`main.py:217-240`). -/

/-- The modem interface property store: interface name ↦ property name ↦
string-list value (only `org.ofono.SimManager` / `SubscriberNumbers` is read
by the recipient derivation). -/
abbrev IfaceProps := List (String × List (String × List String))

def propsLookup (m : IfaceProps) (iface : String) : Option (List (String × List String)) :=
  match m.find? (fun kv => kv.1 = iface) with
  | some kv => some kv.2
  | none => none

def innerLookup (m : List (String × List String)) (k : String) : Option (List String) :=
  match m.find? (fun kv => kv.1 = k) with
  | some kv => some kv.2
  | none => none

/-- Python `s.split('/')[0]`. -/
def firstSlashComponent (s : String) : String :=
  String.mk ((splitOnChar '/' s.data).headD [])

/-- Recipient derivation in `process_mms_content`
(`ofono_push_notification.py:256-269`): starting from `recipients = []`,
when the SimManager interface properties carry a nonempty
`SubscriberNumbers` list, `own_number = numbers[0]` and
`to_number = headers['To'].split('/')[0]` are compared; if they differ the
list becomes `[own_number, to_number, sender_number]` with
`sender_number = sender.split('/')[0]`. -/
def deriveRecipients (ifaceProps : IfaceProps) (toHeader sender : String) :
    List String :=
  let sender_number := firstSlashComponent sender
  match propsLookup ifaceProps "org.ofono.SimManager" with
  | none => []
  | some sim =>
    match innerLookup sim "SubscriberNumbers" with
    | none => []
    | some numbers =>
      match numbers with
      | [] => []
      | own_number :: _ =>
        let to_number := firstSlashComponent toHeader
        if own_number ≠ to_number then [own_number, to_number, sender_number]
        else []

/-- The recipient fix-up inside `export_mms_message` (`main.py:220-221`):
`if status == 'received' and not recipients:
recipients.append(self.ofono_mms_modemmanager_interface.props['ModemNumber'].value)`. -/
def exportRecipients (status : String) (recipients : List String)
    (modemNumber : String) : List String :=
  if status = "received" && recipients.isEmpty then recipients ++ [modemNumber]
  else recipients

/-- The `Recipients` property of the message published for an inbound MMS:
`process_mms_content` derives the list and calls `export_mms_message` with
status `'received'` (`ofono_push_notification.py:271`, `main.py:217-240`). -/
def publishedInboundRecipients (ifaceProps : IfaceProps)
    (toHeader sender modemNumber : String) : List String :=
  exportRecipients "received" (deriveRecipients ifaceProps toHeader sender)
    modemNumber

/-! ## `SetProperty` (`ofono_mms_service.py:254-259`) -/

/-- A service property value (the concrete variant payloads the service map
holds: booleans and integers). -/
inductive PropValue where
  | b : Bool → PropValue
  | i : Int → PropValue
  | s : String → PropValue
deriving DecidableEq, Repr

abbrev ServiceProps := List (String × PropValue)

def servicePropsHas (props : ServiceProps) (name : String) : Bool :=
  props.any (fun kv => kv.1 = name)

def servicePropsGet (props : ServiceProps) (name : String) : Option PropValue :=
  match props.find? (fun kv => kv.1 = name) with
  | some kv => some kv.2
  | none => none

def servicePropsSet (props : ServiceProps) (name : String) (v : PropValue) :
    ServiceProps :=
  props.map (fun kv => if kv.1 = name then (kv.1, v) else kv)

/-- `SetProperty` (`ofono_mms_service.py:254-259`): update the stored property
and rewrite the settings file only when the name is already a key of
`self.props`.  Returns the new property map and whether
`save_settings_to_file` ran. -/
def SetProperty (props : ServiceProps) (name : String) (v : PropValue) :
    ServiceProps × Bool :=
  if servicePropsHas props name then (servicePropsSet props name v, true)
  else (props, false)

/-! ## Retry queue drainer (`ofono_push_notification.py:38-47`)
`retry_failed_requests` loops forever: `get` one pending tuple from the head
of the FIFO `asyncio.Queue`, attempt the fetch; on a truthy body it calls
`process_mms_content` **without any try/except**, otherwise it `put_nowait`s
the very same tuple at the tail; then sleeps 5 seconds.
`process_mms_content` itself has three possible outcomes: it reaches its
single `export_mms_message` call (one published message); it returns without
exporting (the decoded SMIL text is falsy at
`ofono_push_notification.py:256`); or it raises (`TypeError`/`IndexError` in
the parts loop at lines 241-254, `NameError` at line 256 when no part is
SMIL, `AttributeError` at lines 257/265 when `From`/`To` is `None`).  An
uncaught exception kills the drainer task: the popped item is lost and the
rest of the queue is never drained again — modelled by an absorbing
`crashed` flag. -/

/-- `await asyncio.sleep(5)` at `ofono_push_notification.py:47`. -/
def retryQueueDelay : Nat := 5

/-- The fate of one `process_mms_content(body, ...)` call. -/
inductive ProcessResult where
  | published : ProcessResult
  | skipped : ProcessResult
  | raised : ProcessResult
deriving DecidableEq, Repr

/-- Python truthiness of `response_content` (`None` and `b''` are falsy). -/
def fetchFalsy (r : Option (List Nat)) : Bool :=
  match r with
  | none => true
  | some b => b.isEmpty

structure DrainState where
  queue : List PendingItem
  published : List PendingItem
  crashed : Bool
deriving DecidableEq, Repr

/-- One iteration of `retry_failed_requests`: a dead task does nothing; a
falsy fetch re-enqueues the tuple at the tail; a truthy body is processed,
and a raising `process_mms_content` kills the task (`crashed := true`) with
the popped item already lost.  `proc it body` is the outcome of
`process_mms_content(body, it.tid, it.loc, it.sender, it.info)`. -/
def drainStep (fetch : PendingItem → Option (List Nat))
    (proc : PendingItem → List Nat → ProcessResult) (s : DrainState) :
    DrainState :=
  if s.crashed then s
  else
    match s.queue with
    | [] => s
    | x :: rest =>
      match fetch x with
      | none => { queue := rest ++ [x], published := s.published, crashed := false }
      | some body =>
        if body.isEmpty then
          { queue := rest ++ [x], published := s.published, crashed := false }
        else
          match proc x body with
          | ProcessResult.published =>
            { queue := rest, published := s.published ++ [x], crashed := false }
          | ProcessResult.skipped =>
            { queue := rest, published := s.published, crashed := false }
          | ProcessResult.raised =>
            { queue := rest, published := s.published, crashed := true }

/-- `n` iterations of the drainer; `fetchO i x` is the fetch result for
item `x` at drained step `i`. -/
def drainRun (fetchO : Nat → PendingItem → Option (List Nat))
    (proc : PendingItem → List Nat → ProcessResult) :
    Nat → DrainState → DrainState
  | 0, s => s
  | n + 1, s =>
    drainRun (fun k => fetchO (k + 1)) proc n (drainStep (fetchO 0) proc s)

/-! ## Proxy cache (`ofono.py:48-61`)
`CachedClient.get_interface` keys one flat dictionary by `hash(path)` for
object proxies and `hash(path + interface)` for resolved interfaces (the
string itself stands in for its hash).  A missed interface key creates the
object proxy if needed, then tries `get_interface`; an exception stores
`None` as a sentinel.  Whatever sits under the interface key is returned. -/

inductive CacheEntry where
  | introDoc : String → CacheEntry
  | proxyObj : Nat → CacheEntry
  | ifaceRes : Option Nat → CacheEntry
deriving DecidableEq, Repr

abbrev Cache := List (String × CacheEntry)

def cacheLookup (c : Cache) (k : String) : Option CacheEntry :=
  match c.find? (fun kv => kv.1 = k) with
  | some kv => some kv.2
  | none => none

/-- `get_interface(self, introspection, path, interface)`; `resolveNow` is
the outcome the underlying `proxy.get_interface(interface)` call would have
on this call (`none` models the raised exception), `newProxyId` the proxy
object `bus.get_proxy_object` would build on this call.  Returns the entry
returned to the caller, the new cache, and whether an interface resolution
was attempted. -/
def cacheGetInterface (path interface : String) (resolveNow : Option Nat)
    (newProxyId : Nat) (c : Cache) : CacheEntry × Cache × Bool :=
  let ikey := path ++ interface
  match cacheLookup c ikey with
  | some e => (e, c, false)
  | none =>
    let c1 := match cacheLookup c path with
      | some _ => c
      | none => (path, CacheEntry.proxyObj newProxyId) :: c
    let e := CacheEntry.ifaceRes resolveNow
    (e, (ikey, e) :: c1, true)

/-! ## Interface-list reconciliation (`main.py:306-314`)
On an `Interfaces` property change, `ofono_changed` schedules
`add_ofono_interface` for every name in the new list that is not a tracked
key and `remove_ofono_interface` for every tracked key absent from the new
list.  `add_ofono_interface` does `self.ofono_interfaces.update({iface: ...})`
(inserts the key, or overwrites the value of an existing key);
`remove_ofono_interface` pops the key when present
(`main.py:336-358, 399-405`). -/

inductive ReconcileAction where
  | add : String → ReconcileAction
  | remove : String → ReconcileAction
deriving DecidableEq, Repr

/-- The add/remove tasks scheduled by the `Interfaces` branch of
`ofono_changed` for tracked key set `tracked` and incoming list `newList`. -/
def reconcile (tracked newList : List String) : List ReconcileAction :=
  (newList.filter (fun i => ¬ i ∈ tracked)).map ReconcileAction.add ++
    (tracked.filter (fun i => ¬ i ∈ newList)).map ReconcileAction.remove

/-- Effect of the scheduled tasks on the tracked key set: `dict.update` keeps
an existing key and appends a new one; `dict.pop` drops the key. -/
def applyActions (tracked : List String) (acts : List ReconcileAction) :
    List String :=
  acts.foldl
    (fun t a =>
      match a with
      | ReconcileAction.add i => if i ∈ t then t else t ++ [i]
      | ReconcileAction.remove i => t.filter (fun j => j ≠ i))
    tracked

/-! ## `export_mms_message` (`main.py:217-240`) and `SendMessage`
(`ofono_mms_service.py:213-252`)
`export_mms_message` builds the message object, fixes up the recipients,
exports it at `/org/ofono/mms/<uuid>`, appends it to the service's message
list and emits `MessageAdded`; the function body has **no return statement**,
so its value is Python's `None`.  Both `SendMessage` variants end with
`object_path = self.export_mms_message(...)` followed by
`return object_path`, after spawning the background send task with
`self.loop.create_task(self.send_message_wrapper(payload, uuid))`. -/

structure PublishedMessage where
  path : String
  status : String
  date : String
  sender : String
  deliveryReport : Bool
  modemNumber : String
  recipients : List String
  smil : String
deriving DecidableEq, Repr

/-- `export_mms_message` (`main.py:217-240`): the published message and the
function's return value (`none`, since the Python body never returns). -/
def export_mms_message (modemNumber uuid status date sender : String)
    (dr : Bool) (recipients : List String) (smil : String) :
    PublishedMessage × Option String :=
  let recipients2 := exportRecipients status recipients modemNumber
  ({ path := "/org/ofono/mms/" ++ uuid
   , status := status
   , date := date
   , sender := sender
   , deliveryReport := dr
   , modemNumber := modemNumber
   , recipients := recipients2
   , smil := smil }, none)

structure SendMessageResult where
  returnedPath : Option String
  backgroundSendSpawned : Bool
  published : PublishedMessage
deriving DecidableEq, Repr

/-- `SendMessage2` (`ofono_mms_service.py:233-252`) after token generation:
spawn the background transmission task, persist the message files, call
`export_mms_message` with status `'sent'`, sender and `From` the modem
number, delivery report `False`, and return its result as the method's
reply. -/
def SendMessage2 (uuid modemNumber date smil : String)
    (recipients : List String) : SendMessageResult :=
  let e := export_mms_message modemNumber uuid "sent" date modemNumber false
    recipients smil
  { returnedPath := e.2, backgroundSendSpawned := true, published := e.1 }

/-! ## Startup rehydration (`ofono_push_notification.py:113-181`)
The raw blob decode (`MMSMessage.from_data`) is the external codec; a decoded
blob is modelled as its `Delivery-Report` truthiness, its `From` header
(empty string for a falsy header) and its `data_parts` list.  The
`extract_smil_src` regular-expression helper
(`ofono_push_notification.py:283-290`) is taken as a parameter
`extractSrc` — it returns `none` exactly when the Python helper returns
`None` (no `src="..."` match). -/

structure BlobPart where
  content_type : String
  data : String
deriving DecidableEq, Repr

structure Blob where
  deliveryReport : Bool
  fromHeader : String
  parts : List BlobPart
deriving DecidableEq, Repr

/-- The running value of the Python local `smil_src`: initially the integer
`len(mms_smil.data_parts)`, replaced by the extracted source list, or by
`None` when extraction finds nothing. -/
inductive SmilSrcState where
  | count : Nat → SmilSrcState
  | srcs : List String → SmilSrcState
  | noneVal : SmilSrcState
deriving DecidableEq, Repr

structure AttachmentEntry where
  cid : String
  ctype : String
  path : String
  offset : Nat
  size : Nat
deriving DecidableEq, Repr

/-- Python `needle in haystack` on strings: contiguous-substring test. -/
def containsSub (needle : List Char) : List Char → Bool
  | [] => needle.isEmpty
  | c :: t => needle.isPrefixOf (c :: t) || containsSub needle t

/-- `part.data.decode('utf-8').replace("\n", "").replace("\r", "")`. -/
def stripNewlines (s : String) : String :=
  String.mk (s.data.filter (fun c => (c != '\n') && (c != '\r')))

/-- Python list subscript `l[i]`, including negative indices; `none` models
`IndexError`. -/
def pyGet (l : List String) (i : Int) : Option String :=
  if i < 0 then
    let j := (l.length : Int) + i
    if j < 0 then none else l.get? j.toNat
  else l.get? i.toNat

/-- The `for index, part in enumerate(...)` loop of `export_old_messages`
(`ofono_push_notification.py:162-175`): threads `smil_src` and the collected
SMIL text, appends one `attachment_info` per non-SMIL part whose content-id
reference is `f'<{smil_src[index-1]}>'`.  The result is `none` when the
Python loop would raise: subscripting the initial integer or `None` value of
`smil_src` (`TypeError`) or an out-of-range source index (`IndexError`). -/
def partsLoop (extractSrc : String → Option (List String))
    (mmsDir basename : String) :
    List BlobPart → Nat → SmilSrcState → Option String →
    Option (Option String × List AttachmentEntry)
  | [], _, _, smil => some (smil, [])
  | p :: rest, index, src, smil =>
    if containsSub "application/smil".data p.content_type.data then
      let cleaned := stripNewlines p.data
      let src2 := match extractSrc cleaned with
        | some l => SmilSrcState.srcs l
        | none => SmilSrcState.noneVal
      partsLoop extractSrc mmsDir basename rest (index + 1) src2 (some cleaned)
    else
      match src with
      | SmilSrcState.srcs l =>
        match pyGet l ((index : Int) - 1) with
        | some r =>
          match partsLoop extractSrc mmsDir basename rest (index + 1) src smil with
          | some sa =>
            some (sa.1,
              { cid := "<" ++ r ++ ">"
              , ctype := p.content_type
              , path := mmsDir ++ "/" ++ basename ++ ".attachment." ++ toString index
              , offset := 0
              , size := p.data.length } :: sa.2)
          | none => none
        | none => none
      | _ => none

/-- The fate of `process_mms_content` (`ofono_push_notification.py:209-271`)
on a decoded body, sharing the per-part loop with the rehydration scan (the
two loops at lines 241-254 and 162-175 are the same code shape): a crash of
the parts loop is `raised`; an unbound `smil_data` after the loop (no SMIL
part, `NameError` at line 256) is `raised`; a falsy SMIL text returns
without exporting (`skipped`); otherwise `sender.split` (line 257) raises
`AttributeError` when the sender is `None`, and — when SimManager carries a
nonempty `SubscriberNumbers` list — `headers.get('To').split` (line 265)
raises when the `To` header is absent; every surviving path reaches the
single `export_mms_message` call (line 271, `published`). -/
def process_mms_content_result (extractSrc : String → Option (List String))
    (mmsDir uuid : String) (ifaceProps : IfaceProps)
    (sender toHeader : Option String) (blob : Blob) : ProcessResult :=
  match partsLoop extractSrc mmsDir uuid blob.parts 0
      (SmilSrcState.count blob.parts.length) none with
  | none => ProcessResult.raised
  | some sa =>
    match sa.1 with
    | none => ProcessResult.raised
    | some smil =>
      if smil = "" then ProcessResult.skipped
      else
        match sender with
        | none => ProcessResult.raised
        | some _ =>
          match propsLookup ifaceProps "org.ofono.SimManager" with
          | none => ProcessResult.published
          | some sim =>
            match innerLookup sim "SubscriberNumbers" with
            | none => ProcessResult.published
            | some [] => ProcessResult.published
            | some (_ :: _) =>
              match toHeader with
              | none => ProcessResult.raised
              | some _ => ProcessResult.published

/-- `line.split('=')[1].strip()` applied to each line that starts with
`field ++ "="` (`ofono_push_notification.py:140-145`); later lines
overwrite earlier ones, `none` when no line matches. -/
def parseStatusField (field : List Char) (lines : List (List Char)) :
    Option String :=
  lines.foldl
    (fun acc line =>
      if (field ++ "=".data).isPrefixOf line then
        some (String.mk (pyStrip ((splitOnChar '=' line).getD 1 [])))
      else acc)
    none

structure RehydratedEntry where
  state : Option String
  date : Option String
  sender : Option String
  delivery : Option Bool
  smil : Option String
  attachments : List AttachmentEntry
deriving DecidableEq, Repr

/-- The per-token body of `export_old_messages`
(`ofono_push_notification.py:130-177`): parse `state`/`date` from the status
lines, and when the raw blob file exists decode it and recover sender,
delivery report, SMIL text and attachment references; fields stay `none`
(Python `None`) when the blob is absent.  `none` overall when the parts loop
raises. -/
def rehydrateEntry (extractSrc : String → Option (List String))
    (mmsDir basename : String) (statusLines : List (List Char))
    (blob : Option Blob) : Option RehydratedEntry :=
  let st := parseStatusField "state".data statusLines
  let dt := parseStatusField "date".data statusLines
  match blob with
  | none => some { state := st, date := dt, sender := none, delivery := none
                 , smil := none, attachments := [] }
  | some b =>
    let snd := if b.fromHeader ≠ "" then firstSlashComponent b.fromHeader
               else ""
    match partsLoop extractSrc mmsDir basename b.parts 0
        (SmilSrcState.count b.parts.length) none with
    | none => none
    | some sa =>
      some { state := st, date := dt, sender := some snd
           , delivery := some b.deliveryReport, smil := sa.1
           , attachments := sa.2 }

/-! Filenames in the storage-directory scan are modelled as character lists
(`FName`), so that Python's `str.endswith` / `str.startswith` /
`rsplit('.status', 1)[0]` become list operations. -/

abbrev FName := List Char

/-- Python `f.endswith(suffix)`. -/
def fEndsWith (f suffix : FName) : Bool :=
  suffix.isSuffixOf f

/-- Python `f.startswith(pre)`. -/
def fStartsWith (f pre : FName) : Bool :=
  pre.isPrefixOf f

/-- `ofono_push_notification.py:123-125`: files counted as attachments of
`basename`. -/
def attachmentCount (dir : List FName) (basename : FName) : Nat :=
  (dir.filter (fun f => fStartsWith f (basename ++ ".attachment.".data))).length

/-- `filename.rsplit('.status', 1)[0]` for a filename ending in `.status`:
drop the 7-character suffix. -/
def dropStatusSuffix (f : FName) : FName :=
  f.take (f.length - 7)

/-- The filename scan of `export_old_messages`
(`ofono_push_notification.py:113-177`): walk the directory listing; for each
`*.status` file whose token has a `.headers` companion and at least two
attachment files, build the rehydrated entry.  `statusLines b` gives the
lines of `b.status`, `blobOf b` the decoded raw blob (or `none` when the
blob file does not exist).  `none` when a selected entry's decode raises. -/
def exportOldScan (extractSrc : String → Option (List String))
    (mmsDir : String) (dir : List FName)
    (statusLines : FName → List (List Char))
    (blobOf : FName → Option Blob) :
    List FName → Option (List (FName × RehydratedEntry))
  | [] => some []
  | f :: rest =>
    let basename := dropStatusSuffix f
    if fEndsWith f ".status".data = true ∧ (basename ++ ".headers".data) ∈ dir ∧
        2 ≤ attachmentCount dir basename ∧ (basename ++ ".status".data) ∈ dir then
      match rehydrateEntry extractSrc mmsDir (String.mk basename)
          (statusLines basename) (blobOf basename) with
      | none => none
      | some e =>
        match exportOldScan extractSrc mmsDir dir statusLines blobOf rest with
        | none => none
        | some es => some ((basename, e) :: es)
    else exportOldScan extractSrc mmsDir dir statusLines blobOf rest

/-- `export_old_messages`: run the scan over the directory listing; each
produced `(basename, entry)` pair is then handed to
`export_mms_message(basename, state, date, sender, delivery_report, [],
smil_data, attachments)` (`ofono_push_notification.py:179-181`). -/
def export_old_messages (extractSrc : String → Option (List String))
    (mmsDir : String) (dir : List FName)
    (statusLines : FName → List (List Char)) (blobOf : FName → Option Blob) :
    Option (List (FName × RehydratedEntry)) :=
  exportOldScan extractSrc mmsDir dir statusLines blobOf dir

/-! # Theorems -/

/-- C1.  The claim's first half holds: with own number `A`, decoded To
number `B` and sender number `C`, `A ≠ B` gives published recipients
`[A, B, C]`.  The second half is amended: with `A = B` the derivation
leaves `recipients` empty, but `export_mms_message` then appends the
service's `ModemNumber` property to the empty list of a `'received'`
message (`main.py:220-221`), so the published recipients are
`[ModemNumber]`, not empty. -/
theorem c1_inboundRecipients (ifaceProps : IfaceProps)
    (sim : List (String × List String)) (A B C : String) (rest : List String)
    (toHeader sender modemNumber : String)
    (hsim : propsLookup ifaceProps "org.ofono.SimManager" = some sim)
    (hnum : innerLookup sim "SubscriberNumbers" = some (A :: rest))
    (hto : firstSlashComponent toHeader = B)
    (hfrom : firstSlashComponent sender = C) :
    (A ≠ B →
      publishedInboundRecipients ifaceProps toHeader sender modemNumber = [A, B, C]) ∧
    (A = B →
      publishedInboundRecipients ifaceProps toHeader sender modemNumber = [modemNumber]) := by
  simp only [publishedInboundRecipients, deriveRecipients, hsim, hnum, hto, hfrom]
  constructor
  · intro hne
    simp [hne, exportRecipients]
  · intro heq
    simp [heq, exportRecipients]

/-- C1, counterexample to the claim as stated: own number `A = "111"`,
`To = "111"` (so `A = B`), sender `"222"`, service ModemNumber `"111"`:
the published recipients are `["111"]`, not the empty list. -/
theorem c1_counterexample :
    publishedInboundRecipients
      [("org.ofono.SimManager", [("SubscriberNumbers", ["111"])])]
      "111/TYPE=PLMN" "222/TYPE=PLMN" "111" ≠ [] := by decide

/-- C1, witness: the amended statement evaluated at concrete inputs. -/
theorem c1_inboundRecipients_witness :
    publishedInboundRecipients
      [("org.ofono.SimManager", [("SubscriberNumbers", ["111"])])]
      "222/TYPE=PLMN" "333/TYPE=PLMN" "111" = ["111", "222", "333"] ∧
    publishedInboundRecipients
      [("org.ofono.SimManager", [("SubscriberNumbers", ["111"])])]
      "111/TYPE=PLMN" "333/TYPE=PLMN" "999" = ["999"] :=
  ⟨(c1_inboundRecipients
      [("org.ofono.SimManager", [("SubscriberNumbers", ["111"])])]
      [("SubscriberNumbers", ["111"])] "111" "222" "333" []
      "222/TYPE=PLMN" "333/TYPE=PLMN" "111"
      (by decide) (by decide) (by decide) (by decide)).1 (by decide),
   (c1_inboundRecipients
      [("org.ofono.SimManager", [("SubscriberNumbers", ["111"])])]
      [("SubscriberNumbers", ["111"])] "111" "111" "333" []
      "111/TYPE=PLMN" "333/TYPE=PLMN" "999"
      (by decide) (by decide) (by decide) (by decide)).2 rfl⟩

theorem drainRun_succ (fetchO : Nat → PendingItem → Option (List Nat))
    (proc : PendingItem → List Nat → ProcessResult) (n : Nat) (s : DrainState) :
    drainRun fetchO proc (n + 1) s =
      drainRun (fun k => fetchO (k + 1)) proc n (drainStep (fetchO 0) proc s) :=
  rfl

theorem drainStep_crashed (fetch : PendingItem → Option (List Nat))
    (proc : PendingItem → List Nat → ProcessResult) (s : DrainState)
    (h : s.crashed = true) : drainStep fetch proc s = s := by
  simp [drainStep, h]

theorem drainRun_crashed (fetchO : Nat → PendingItem → Option (List Nat))
    (proc : PendingItem → List Nat → ProcessResult) (n : Nat) (s : DrainState)
    (h : s.crashed = true) : drainRun fetchO proc n s = s := by
  induction n generalizing fetchO with
  | zero => rfl
  | succ k ih =>
    rw [drainRun_succ, drainStep_crashed (fetchO 0) proc s h]
    exact ih (fun k => fetchO (k + 1))

/-- C2, counterexample to the claim as stated: the very first fetch of the
queued item succeeds (`K = 0`, truthy body `[1]`), but the body's only
decoded part is not SMIL, so `process_mms_content` hits
`smil_src[index-1]` on an integer (`ofono_push_notification.py:253`,
`TypeError`); the uncaught exception kills the drainer task: zero messages
are published, the item is gone, and the second queued notification is
stranded forever — not "exactly one published, never dropped". -/
theorem c2_counterexample :
    drainRun (fun _ _ => some [1])
      (fun it _ => process_mms_content_result (fun _ => none) "/mms" "u1"
        [("org.ofono.SimManager", [("SubscriberNumbers", ["111"])])]
        it.sender (some "222/TYPE=PLMN")
        { deliveryReport := false, fromHeader := "555"
        , parts := [{ content_type := "image/jpeg", data := "d" }] })
      2
      { queue := [⟨some "t", "http://u", some "5", []⟩,
                  ⟨some "t2", "http://u2", some "6", []⟩]
      , published := [], crashed := false } =
      { queue := [⟨some "t2", "http://u2", some "6", []⟩]
      , published := [], crashed := true } := by
  decide

/-- C2, amended.  Provided the successful attempt's body is one whose
`process_mms_content` reaches its export call (decode neither raises nor
yields a falsy SMIL text), a queued notification whose fetch is falsy at
drained steps `0..K-1` and truthy at step `K` is published exactly once and
removed from the queue; a falsy attempt re-inserts the very same tuple at
the tail of the FIFO queue; a truthy body that publishes moves the item to
the published list; but a truthy body whose processing raises kills the
drainer task — the item is dropped unpublished and a crashed drainer never
drains anything again. -/
theorem c2_retryQueue (K : Nat)
    (fetchO : Nat → PendingItem → Option (List Nat))
    (proc : PendingItem → List Nat → ProcessResult) (x : PendingItem)
    (hfail : ∀ i, i < K → fetchFalsy (fetchO i x) = true)
    (hsucc : fetchFalsy (fetchO K x) = false)
    (hproc : ∀ b, fetchO K x = some b → proc x b = ProcessResult.published) :
    drainRun fetchO proc (K + 1) ⟨[x], [], false⟩ = ⟨[], [x], false⟩ ∧
    (∀ (f : PendingItem → Option (List Nat))
        (p : PendingItem → List Nat → ProcessResult) (y : PendingItem)
        (rest pub : List PendingItem),
      fetchFalsy (f y) = true →
      drainStep f p ⟨y :: rest, pub, false⟩ = ⟨rest ++ [y], pub, false⟩) ∧
    (∀ (f : PendingItem → Option (List Nat))
        (p : PendingItem → List Nat → ProcessResult) (y : PendingItem)
        (rest pub : List PendingItem) (b : List Nat),
      f y = some b → b.isEmpty = false → p y b = ProcessResult.published →
      drainStep f p ⟨y :: rest, pub, false⟩ = ⟨rest, pub ++ [y], false⟩) ∧
    (∀ (f : PendingItem → Option (List Nat))
        (p : PendingItem → List Nat → ProcessResult) (y : PendingItem)
        (rest pub : List PendingItem) (b : List Nat),
      f y = some b → b.isEmpty = false → p y b = ProcessResult.raised →
      drainStep f p ⟨y :: rest, pub, false⟩ = ⟨rest, pub, true⟩) ∧
    (∀ (f : Nat → PendingItem → Option (List Nat))
        (p : PendingItem → List Nat → ProcessResult) (n : Nat) (s : DrainState),
      s.crashed = true → drainRun f p n s = s) := by
  refine ⟨?_, ?_, ?_, ?_, fun f p n s h => drainRun_crashed f p n s h⟩
  · induction K generalizing fetchO with
    | zero =>
      cases hf0 : fetchO 0 x with
      | none => rw [hf0] at hsucc; simp [fetchFalsy] at hsucc
      | some b =>
        have hbe : b.isEmpty = false := by
          rw [hf0] at hsucc
          simpa [fetchFalsy] using hsucc
        have hpb : proc x b = ProcessResult.published := hproc b hf0
        rw [drainRun_succ]
        simp [drainStep, drainRun, hf0, hbe, hpb]
    | succ k ih =>
      have h0 : fetchFalsy (fetchO 0 x) = true := hfail 0 (Nat.succ_pos k)
      have hstep : drainStep (fetchO 0) proc ⟨[x], [], false⟩ = ⟨[x], [], false⟩ := by
        cases hf0 : fetchO 0 x with
        | none => simp [drainStep, hf0]
        | some b =>
          have hbe : b.isEmpty = true := by
            rw [hf0] at h0
            simpa [fetchFalsy] using h0
          simp [drainStep, hf0, hbe]
      rw [drainRun_succ, hstep]
      refine ih (fun j => fetchO (j + 1)) (fun i hi => ?_) hsucc hproc
      exact hfail (i + 1) (Nat.succ_lt_succ hi)
  · intro f p y rest pub hf
    cases hfy : f y with
    | none => simp [drainStep, hfy]
    | some b =>
      have hbe : b.isEmpty = true := by
        rw [hfy] at hf
        simpa [fetchFalsy] using hf
      simp [drainStep, hfy, hbe]
  · intro f p y rest pub b hfy hbe hpb
    simp [drainStep, hfy, hbe, hpb]
  · intro f p y rest pub b hfy hbe hpb
    simp [drainStep, hfy, hbe, hpb]

/-- C2, witness: two falsy attempts then a truthy two-part body (SMIL part
first, image part second, `src` list covering it) that
`process_mms_content` publishes: the item ends published once, the queue
empty, the drainer alive. -/
theorem c2_retryQueue_witness :
    drainRun (fun i _ => if 2 ≤ i then some [7] else none)
      (fun it _ => process_mms_content_result (fun _ => some ["a"]) "/mms" "u1"
        [("org.ofono.SimManager", [("SubscriberNumbers", ["111"])])]
        it.sender (some "222/TYPE=PLMN")
        { deliveryReport := false, fromHeader := "555"
        , parts := [{ content_type := "application/smil", data := "smil" },
                    { content_type := "image/jpeg", data := "d" }] })
      3 ⟨[⟨some "t", "http://u", some "5", []⟩], [], false⟩ =
      ⟨[], [⟨some "t", "http://u", some "5", []⟩], false⟩ :=
  (c2_retryQueue 2 (fun i _ => if 2 ≤ i then some [7] else none)
    (fun it _ => process_mms_content_result (fun _ => some ["a"]) "/mms" "u1"
      [("org.ofono.SimManager", [("SubscriberNumbers", ["111"])])]
      it.sender (some "222/TYPE=PLMN")
      { deliveryReport := false, fromHeader := "555"
      , parts := [{ content_type := "application/smil", data := "smil" },
                  { content_type := "image/jpeg", data := "d" }] })
    ⟨some "t", "http://u", some "5", []⟩
    (fun i hi => by
      have h2 : ¬ 2 ≤ i := by omega
      simp [fetchFalsy, h2])
    (by decide)
    (fun b hb => by
      simp at hb
      subst hb
      decide)).1

/-- C3.  When the MMS context's `Active` property changes to false the
handler invokes `force_activate_context`; the loop sleeps 2 time units
between attempts and has no retry bound: after any number `N` of
consecutive non-successful activation attempts it is still running. -/
theorem c3_contextSelfHealing (N : Nat) (oracle : Nat → ActOutcome)
    (hfail : ∀ i, i < N → oracle i ≠ ActOutcome.ok) :
    contextActiveChangedTriggers "Active" false = true ∧
    forceActivateRunning oracle N = true ∧
    activateRetryDelay = 2 := by
  refine ⟨by decide, ?_, rfl⟩
  induction N with
  | zero => rfl
  | succ n ih =>
    have hn : forceActivateRunning oracle n = true :=
      ih (fun i hi => hfail i (Nat.lt_succ_of_lt hi))
    have hlast : oracle n ≠ ActOutcome.ok := hfail n (Nat.lt_succ_self n)
    simp [forceActivateRunning, hn, hlast]

/-- C3, witness: 100 consecutive failures leave the loop running. -/
theorem c3_contextSelfHealing_witness :
    contextActiveChangedTriggers "Active" false = true ∧
    forceActivateRunning (fun _ => ActOutcome.failed) 100 = true ∧
    activateRetryDelay = 2 :=
  c3_contextSelfHealing 100 (fun _ => ActOutcome.failed)
    (fun _ _ => fun h => ActOutcome.noConfusion h)

/-- C4.  The claim says `SendMessage` returns the object path derived from
the fresh token after handing transmission to a background task.  The
transmission is indeed handed off, but `export_mms_message` in `main.py`
has no return statement, so `object_path = self.export_mms_message(...)`
binds Python's `None` and the bus-facing call returns `None` instead of
`/org/ofono/mms/<token>` (contradicting the method's declared `'o'` reply
signature).  Evaluated at the concrete call
`SendMessage(["5551234"], options, [])` with token `"abc123"`. -/
theorem c4_sendMessageReturn :
    (SendMessage2 "abc123" "5551234" "2024-01-01T00:00:00" "" ["5551234"]).returnedPath
        = none ∧
    (SendMessage2 "abc123" "5551234" "2024-01-01T00:00:00" "" ["5551234"]).returnedPath
        ≠ some "/org/ofono/mms/abc123" ∧
    (SendMessage2 "abc123" "5551234" "2024-01-01T00:00:00" "" ["5551234"]).backgroundSendSpawned
        = true ∧
    (SendMessage2 "abc123" "5551234" "2024-01-01T00:00:00" "" ["5551234"]).published.path
        = "/org/ofono/mms/abc123" := by
  refine ⟨rfl, by decide, rfl, by decide⟩

/-- C5, counterexample to the claim as stated: an HTTP 200 response whose
body is empty is *not* handed to decode-and-persist — `if response_content:`
is false for the empty byte string, so the notification is enqueued onto
the retry queue instead. -/
theorem c5_counterexample :
    receiveNotificationStep (HttpOutcome.resp 200 [])
      ⟨some "tid1", "http://mmsc.example/x", some "555", []⟩ =
      ReceiveAction.enqueued ⟨some "tid1", "http://mmsc.example/x", some "555", []⟩ := by
  decide

/-- C5, amended: a 200 response with a *non-empty* body is handed to
`process_mms_content` and nothing is enqueued; on a non-200 status, an
exception or timeout — and likewise on a 200 response with an empty
body — the same pending tuple (transaction id, content location, sender,
metadata) is enqueued and the handler returns without raising. -/
theorem c5_fetchOutcome (outcome : HttpOutcome) (item : PendingItem) :
    (∀ status body, outcome = HttpOutcome.resp status body → status = 200 →
      body ≠ [] →
      receiveNotificationStep outcome item = ReceiveAction.processed body) ∧
    (∀ status body, outcome = HttpOutcome.resp status body → status ≠ 200 →
      receiveNotificationStep outcome item = ReceiveAction.enqueued item) ∧
    (outcome = HttpOutcome.exc →
      receiveNotificationStep outcome item = ReceiveAction.enqueued item) ∧
    (∀ status, outcome = HttpOutcome.resp status [] →
      receiveNotificationStep outcome item = ReceiveAction.enqueued item) := by
  refine ⟨?_, ?_, ?_, ?_⟩
  · rintro status body rfl h200 hbody
    simp [receiveNotificationStep, fetch_mms_content, receiveDispatch, h200, hbody]
  · rintro status body rfl hn200
    simp [receiveNotificationStep, fetch_mms_content, receiveDispatch, hn200]
  · rintro rfl
    simp [receiveNotificationStep, fetch_mms_content, receiveDispatch]
  · rintro status rfl
    by_cases h : status = 200 <;>
      simp [receiveNotificationStep, fetch_mms_content, receiveDispatch, h]

/-- C5, witness: a 503 response is enqueued, a 200 response with a
one-byte body is processed. -/
theorem c5_fetchOutcome_witness :
    receiveNotificationStep (HttpOutcome.resp 503 [1])
      ⟨some "t", "http://u", some "5", []⟩ =
      ReceiveAction.enqueued ⟨some "t", "http://u", some "5", []⟩ ∧
    receiveNotificationStep (HttpOutcome.resp 200 [7])
      ⟨some "t", "http://u", some "5", []⟩ =
      ReceiveAction.processed [7] :=
  ⟨(c5_fetchOutcome (HttpOutcome.resp 503 [1])
      ⟨some "t", "http://u", some "5", []⟩).2.1 503 [1] rfl (by decide),
   (c5_fetchOutcome (HttpOutcome.resp 200 [7])
      ⟨some "t", "http://u", some "5", []⟩).1 200 [7] rfl rfl (by decide)⟩

theorem cacheLookup_cons_self (k : String) (e : CacheEntry) (c : Cache) :
    cacheLookup ((k, e) :: c) k = some e := by
  simp [cacheLookup]

theorem cacheLookup_cons_of_ne (k2 k : String) (e : CacheEntry) (c : Cache)
    (h : k2 ≠ k) : cacheLookup ((k2, e) :: c) k = cacheLookup c k := by
  simp [cacheLookup, List.find?_cons, h]

/-- C6.  A first lookup of a `(path, interface)` pair stores the resolution
outcome — the `none` sentinel when resolution raised — under the pair's key;
a lookup whose key is already cached returns the cached entry unchanged,
without attempting resolution and without touching the cache; and no later
`get_interface` call ever disturbs an existing cache binding, so a failed
pair keeps answering with the sentinel and a succeeded pair keeps answering
with the same handle. -/
theorem c6_proxyCache (p i : String) (c : Cache) (r1 : Option Nat) (m1 : Nat)
    (hmiss : cacheLookup c (p ++ i) = none) :
    (cacheGetInterface p i r1 m1 c).1 = CacheEntry.ifaceRes r1 ∧
    (cacheGetInterface p i r1 m1 c).2.2 = true ∧
    cacheLookup (cacheGetInterface p i r1 m1 c).2.1 (p ++ i) =
      some (CacheEntry.ifaceRes r1) ∧
    (∀ (c2 : Cache) (p2 i2 : String) (r : Option Nat) (m : Nat) (e : CacheEntry),
      cacheLookup c2 (p2 ++ i2) = some e →
      cacheGetInterface p2 i2 r m c2 = (e, c2, false)) ∧
    (∀ (c2 : Cache) (p2 i2 : String) (r : Option Nat) (m : Nat)
        (k : String) (e : CacheEntry),
      cacheLookup c2 k = some e →
      cacheLookup (cacheGetInterface p2 i2 r m c2).2.1 k = some e) := by
  refine ⟨?_, ?_, ?_, ?_, ?_⟩
  · simp [cacheGetInterface, hmiss]
  · simp [cacheGetInterface, hmiss]
  · simp only [cacheGetInterface, hmiss]
    exact cacheLookup_cons_self _ _ _
  · intro c2 p2 i2 r m e h
    simp [cacheGetInterface, h]
  · intro c2 p2 i2 r m k e h
    cases hik : cacheLookup c2 (p2 ++ i2) with
    | some e2 => simpa [cacheGetInterface, hik] using h
    | none =>
      have hkne : p2 ++ i2 ≠ k := by
        intro heq
        rw [heq, h] at hik
        cases hik
      simp only [cacheGetInterface, hik]
      rw [cacheLookup_cons_of_ne _ _ _ _ hkne]
      cases hp : cacheLookup c2 p2 with
      | some e3 => simpa [hp] using h
      | none =>
        have hpne : p2 ≠ k := by
          intro heq
          rw [heq, h] at hp
          cases hp
        simp only [hp]
        rw [cacheLookup_cons_of_ne _ _ _ _ hpne]
        exact h

/-- C6, witness: a failed first resolution of
`("/ril_0", "org.ofono.Foo")` stores the sentinel, and the next lookup of
the same pair returns the sentinel with no new resolution attempt — even
though resolution would now succeed (`some 3`). -/
theorem c6_proxyCache_witness :
    (cacheGetInterface "/ril_0" "org.ofono.Foo" none 7 []).1 =
      CacheEntry.ifaceRes none ∧
    cacheGetInterface "/ril_0" "org.ofono.Foo" (some 3) 9
        (cacheGetInterface "/ril_0" "org.ofono.Foo" none 7 []).2.1 =
      (CacheEntry.ifaceRes none,
       (cacheGetInterface "/ril_0" "org.ofono.Foo" none 7 []).2.1, false) :=
  have h := c6_proxyCache "/ril_0" "org.ofono.Foo" [] none 7 (by decide)
  ⟨h.1, h.2.2.2.1 _ "/ril_0" "org.ofono.Foo" (some 3) 9
    (CacheEntry.ifaceRes none) h.2.2.1⟩

theorem applyActions_cons (t : List String) (a : ReconcileAction)
    (acts : List ReconcileAction) :
    applyActions t (a :: acts) =
      applyActions
        (match a with
         | ReconcileAction.add i => if i ∈ t then t else t ++ [i]
         | ReconcileAction.remove i => t.filter (fun j => j ≠ i))
        acts :=
  rfl

theorem applyActions_append (t : List String) (l1 l2 : List ReconcileAction) :
    applyActions t (l1 ++ l2) = applyActions (applyActions t l1) l2 :=
  List.foldl_append _ _ _ _

theorem mem_applyActions_adds (t as : List String) (x : String) :
    x ∈ applyActions t (as.map ReconcileAction.add) ↔ x ∈ t ∨ x ∈ as := by
  induction as generalizing t with
  | nil => simp [applyActions]
  | cons a rest ih =>
    rw [List.map_cons, applyActions_cons]
    by_cases ha : a ∈ t
    · simp only [ha, if_pos, ih]
      constructor
      · rintro (h | h)
        · exact Or.inl h
        · exact Or.inr (List.mem_cons_of_mem _ h)
      · rintro (h | h)
        · exact Or.inl h
        · rcases List.mem_cons.mp h with rfl | h
          · exact Or.inl ha
          · exact Or.inr h
    · simp only [ha, if_neg, not_false_iff, ih, List.mem_append,
        List.mem_singleton, List.mem_cons]
      tauto
  
theorem mem_applyActions_removes (t rs : List String) (x : String) :
    x ∈ applyActions t (rs.map ReconcileAction.remove) ↔ x ∈ t ∧ ¬ x ∈ rs := by
  induction rs generalizing t with
  | nil => simp [applyActions]
  | cons r rest ih =>
    rw [List.map_cons, applyActions_cons]
    simp only [ih, List.mem_filter, List.mem_cons]
    constructor
    · rintro ⟨⟨hxt, hne⟩, hnr⟩
      refine ⟨hxt, ?_⟩
      simp at hne
      tauto
    · rintro ⟨hxt, hn⟩
      refine ⟨⟨hxt, ?_⟩, fun hr => hn (Or.inr hr)⟩
      simp
      intro heq
      exact hn (Or.inl heq)

theorem reconcile_eq_nil_of_mem_iff (tracked newList : List String)
    (h : ∀ x, x ∈ tracked ↔ x ∈ newList) :
    reconcile tracked newList = [] := by
  unfold reconcile
  rw [List.append_eq_nil]
  constructor
  · rw [List.map_eq_nil_iff, List.filter_eq_nil_iff]
    intro a ha
    simp [(h a).mpr ha]
  · rw [List.map_eq_nil_iff, List.filter_eq_nil_iff]
    intro a ha
    simp [(h a).mp ha]

/-- C7.  The interface-list reconciler is idempotent: an `Interfaces` change
whose list already matches the tracked key set schedules no add/remove
tasks, and after the scheduled tasks of any reconciliation have run,
reconciling again with the same list schedules nothing. -/
theorem c7_reconcileIdempotent (tracked newList : List String) :
    ((∀ x, x ∈ tracked ↔ x ∈ newList) → reconcile tracked newList = []) ∧
    reconcile (applyActions tracked (reconcile tracked newList)) newList = [] := by
  refine ⟨reconcile_eq_nil_of_mem_iff tracked newList, ?_⟩
  refine reconcile_eq_nil_of_mem_iff _ _ (fun x => ?_)
  unfold reconcile
  rw [applyActions_append, mem_applyActions_removes, mem_applyActions_adds]
  simp only [List.mem_filter, decide_eq_true_eq]
  by_cases hxt : x ∈ tracked <;> by_cases hxn : x ∈ newList <;> simp [hxt, hxn]

/-- C7, witness: a tracked set `["a", "b"]` and an unchanged (reordered)
list `["b", "a"]` schedule nothing; re-running after applying the actions
of a real change `["a"] → ["a", "c"]` also schedules nothing. -/
theorem c7_reconcileIdempotent_witness :
    reconcile ["a", "b"] ["b", "a"] = [] ∧
    reconcile (applyActions ["a"] (reconcile ["a"] ["a", "c"])) ["a", "c"] = [] :=
  ⟨(c7_reconcileIdempotent ["a", "b"] ["b", "a"]).1 (fun x => by simp [or_comm]),
   (c7_reconcileIdempotent ["a"] ["a", "c"]).2⟩

theorem servicePropsGet_cons (a : String) (b : PropValue) (l : ServiceProps)
    (k : String) :
    servicePropsGet ((a, b) :: l) k =
      if a = k then some b else servicePropsGet l k := by
  by_cases h : a = k <;> simp [servicePropsGet, h]

theorem servicePropsSet_cons (a : String) (b : PropValue) (l : ServiceProps)
    (name : String) (v : PropValue) :
    servicePropsSet ((a, b) :: l) name v =
      (if a = name then (a, v) else (a, b)) :: servicePropsSet l name v := by
  by_cases h : a = name <;> simp [servicePropsSet, h]

theorem servicePropsGet_set_self (props : ServiceProps) (name : String)
    (v : PropValue) (h : servicePropsHas props name = true) :
    servicePropsGet (servicePropsSet props name v) name = some v := by
  induction props with
  | nil => simp [servicePropsHas] at h
  | cons kv rest ih =>
    obtain ⟨a, b⟩ := kv
    rw [servicePropsSet_cons]
    by_cases ha : a = name
    · rw [if_pos ha, servicePropsGet_cons, if_pos ha]
    · have h2 : servicePropsHas rest name = true := by
        simpa [servicePropsHas, ha] using h
      rw [if_neg ha, servicePropsGet_cons, if_neg ha]
      exact ih h2

theorem servicePropsGet_set_other (props : ServiceProps) (name : String)
    (v : PropValue) (k : String) (h : k ≠ name) :
    servicePropsGet (servicePropsSet props name v) k = servicePropsGet props k := by
  induction props with
  | nil => rfl
  | cons kv rest ih =>
    obtain ⟨a, b⟩ := kv
    rw [servicePropsSet_cons]
    by_cases ha : a = name
    · have hak : ¬ a = k := by
        rw [ha]
        exact fun heq => h heq.symm
      rw [if_pos ha, servicePropsGet_cons, servicePropsGet_cons, if_neg hak,
        if_neg hak]
      exact ih
    · rw [if_neg ha, servicePropsGet_cons, servicePropsGet_cons]
      by_cases hak : a = k
      · rw [if_pos hak, if_pos hak]
      · rw [if_neg hak, if_neg hak]
        exact ih

/-- C9.  `SetProperty(name, value)` with a name outside the property map is
a no-op: the map is returned unchanged and `save_settings_to_file` is not
called; with a name in the map, that entry is updated, the settings file is
rewritten, and every other entry is untouched. -/
theorem c9_setPropertyFrame (props : ServiceProps) (name : String)
    (v : PropValue) :
    (servicePropsHas props name = false →
      SetProperty props name v = (props, false)) ∧
    (servicePropsHas props name = true →
      (SetProperty props name v).2 = true ∧
      servicePropsGet (SetProperty props name v).1 name = some v ∧
      ∀ k, k ≠ name →
        servicePropsGet (SetProperty props name v).1 k = servicePropsGet props k) := by
  constructor
  · intro h
    simp [SetProperty, h]
  · intro h
    refine ⟨by simp [SetProperty, h], ?_, ?_⟩
    · simp only [SetProperty, h, if_pos]
      exact servicePropsGet_set_self props name v h
    · intro k hk
      simp only [SetProperty, h, if_pos]
      exact servicePropsGet_set_other props name v k hk

/-- The service property map at initialization
(`ofono_mms_service.py:39-46`). -/
def serviceDefaultProps : ServiceProps :=
  [("UseDeliveryReports", PropValue.b false),
   ("AutoCreateSMIL", PropValue.b true),
   ("TotalMaxAttachmentSize", PropValue.i 1100000),
   ("MaxAttachments", PropValue.i 25),
   ("NotificationInds", PropValue.i 0),
   ("ForceCAres", PropValue.b true)]

/-- C9, witness: an unknown name leaves the default map untouched without a
file write; a known name is updated, saved, and leaves a different key
unchanged. -/
theorem c9_setPropertyFrame_witness :
    SetProperty serviceDefaultProps "NoSuchProperty" (PropValue.b true) =
      (serviceDefaultProps, false) ∧
    (SetProperty serviceDefaultProps "AutoCreateSMIL" (PropValue.b false)).2 = true ∧
    servicePropsGet (SetProperty serviceDefaultProps "AutoCreateSMIL"
      (PropValue.b false)).1 "AutoCreateSMIL" = some (PropValue.b false) ∧
    servicePropsGet (SetProperty serviceDefaultProps "AutoCreateSMIL"
        (PropValue.b false)).1 "MaxAttachments" =
      servicePropsGet serviceDefaultProps "MaxAttachments" :=
  have h1 := c9_setPropertyFrame serviceDefaultProps "NoSuchProperty" (PropValue.b true)
  have h2 := c9_setPropertyFrame serviceDefaultProps "AutoCreateSMIL" (PropValue.b false)
  ⟨h1.1 (by decide), (h2.2 (by decide)).1, (h2.2 (by decide)).2.1,
   (h2.2 (by decide)).2.2 "MaxAttachments" (by decide)⟩

theorem mem_generateToken (u : List Char) (c : Char)
    (hc : c ∈ generateToken u) : c = '1' ∨ (c ∈ u ∧ c ≠ '-') := by
  unfold generateToken at hc
  rcases List.mem_map.mp hc with ⟨a, ha, hfa⟩
  by_cases hd : a = '-'
  · rw [hd, if_pos rfl] at hfa
    exact Or.inl hfa.symm
  · rw [if_neg hd] at hfa
    exact Or.inr ⟨hfa ▸ ha, hfa ▸ hd⟩

theorem uuidChar_pathElement (c : Char) (h : isUuidChar c = true)
    (hne : c ≠ '-') : pathElementChar c = true := by
  have h2 : c ∈ ['0', '2', '4', '6', '8', 'a', 'c', 'e',
      '1', '3', '5', '7', '9', 'b', 'd', 'f', '-'] := by
    simpa [isUuidChar] using h
  fin_cases h2 <;> first | decide | (exact absurd rfl hne)

theorem splitOnCharAux_no_sep (sep : Char) (t : List Char) :
    ∀ acc, ¬ sep ∈ t → splitOnCharAux sep t acc = [acc.reverse ++ t] := by
  induction t with
  | nil => intro acc _; simp [splitOnCharAux]
  | cons c rest ih =>
    intro acc h
    have hc : ¬ c = sep := fun heq => h (by rw [← heq]; exact List.mem_cons_self c rest)
    have hr : ¬ sep ∈ rest := fun hm => h (List.mem_cons_of_mem _ hm)
    rw [splitOnCharAux, if_neg hc, ih _ hr]
    simp

theorem splitOnCharAux_seg (sep : Char) (seg : List Char) :
    ∀ (t acc : List Char), ¬ sep ∈ seg →
      splitOnCharAux sep (seg ++ sep :: t) acc =
        (acc.reverse ++ seg) :: splitOnCharAux sep t [] := by
  induction seg with
  | nil =>
    intro t acc _
    rw [List.nil_append, splitOnCharAux, if_pos rfl]
    simp
  | cons c rest ih =>
    intro t acc h
    have hc : ¬ c = sep := fun heq => h (by rw [← heq]; exact List.mem_cons_self c rest)
    have hr : ¬ sep ∈ rest := fun hm => h (List.mem_cons_of_mem _ hm)
    rw [List.cons_append, splitOnCharAux, if_neg hc, ih _ _ hr]
    simp

theorem validObjectPath_cons (rest : List Char) :
    validObjectPath ('/' :: rest) =
      (splitOnChar '/' rest).all
        (fun comp => !comp.isEmpty && comp.all pathElementChar) := by
  simp [validObjectPath]

/-- C10.  Every generated message token is the uuid4 string with each `-`
replaced by `1`: the token contains no dash, and the derived bus object
path `/org/ofono/mms/<token>` is a well-formed object path. -/
theorem c10_tokenFormat (u : List Char) (hu : ∀ c ∈ u, isUuidChar c = true)
    (hne : u ≠ []) :
    ¬ '-' ∈ generateToken u ∧
    validObjectPath (messageObjectPath (generateToken u)) = true := by
  constructor
  · intro hd
    rcases mem_generateToken u '-' hd with h1 | ⟨_, h2⟩
    · exact absurd h1 (by decide)
    · exact h2 rfl
  · have hslash : ¬ '/' ∈ generateToken u := by
      intro hs
      rcases mem_generateToken u '/' hs with h1 | ⟨hu2, _⟩
      · exact absurd h1 (by decide)
      · exact absurd (hu '/' hu2) (by decide)
    have hpath : messageObjectPath (generateToken u) =
        '/' :: ("org".data ++ '/' ::
          ("ofono".data ++ '/' :: ("mms".data ++ '/' :: generateToken u))) := rfl
    rw [hpath, validObjectPath_cons]
    rw [show splitOnChar '/' ("org".data ++ '/' ::
          ("ofono".data ++ '/' :: ("mms".data ++ '/' :: generateToken u))) =
        splitOnCharAux '/' ("org".data ++ '/' ::
          ("ofono".data ++ '/' :: ("mms".data ++ '/' :: generateToken u))) []
      from rfl]
    rw [splitOnCharAux_seg '/' "org".data _ _ (by decide),
      splitOnCharAux_seg '/' "ofono".data _ _ (by decide),
      splitOnCharAux_seg '/' "mms".data _ _ (by decide),
      splitOnCharAux_no_sep '/' (generateToken u) [] hslash]
    have htk1 : (generateToken u).isEmpty = false := by
      cases u with
      | nil => exact absurd rfl hne
      | cons c rest => rfl
    have htk2 : (generateToken u).all pathElementChar = true := by
      rw [List.all_eq_true]
      intro c hc
      rcases mem_generateToken u c hc with h1 | ⟨hcu, hcd⟩
      · rw [h1]; decide
      · exact uuidChar_pathElement c (hu c hcu) hcd
    simp [htk1, htk2]
    decide

/-- C10, witness: a concrete uuid4 string. -/
theorem c10_tokenFormat_witness :
    ¬ '-' ∈ generateToken "de305d54-75b4-431b-adb2-eb6b9e546014".data ∧
    validObjectPath (messageObjectPath
      (generateToken "de305d54-75b4-431b-adb2-eb6b9e546014".data)) = true :=
  c10_tokenFormat "de305d54-75b4-431b-adb2-eb6b9e546014".data
    (by decide) (by decide)

theorem fEndsWith_append_status (b : FName) :
    fEndsWith (b ++ ".status".data) ".status".data = true := by
  rw [fEndsWith]
  rw [show (".status".data.isSuffixOf (b ++ ".status".data)) = true ↔
      ".status".data <:+ b ++ ".status".data from List.isSuffixOf_iff_suffix]
  exact List.suffix_append b _

theorem dropStatusSuffix_append (b : FName) :
    dropStatusSuffix (b ++ ".status".data) = b := by
  unfold dropStatusSuffix
  rw [List.length_append, show (".status".data).length = 7 from rfl,
    Nat.add_sub_cancel]
  exact List.take_left b _

theorem fEndsWith_status_decomp (f : FName)
    (h : fEndsWith f ".status".data = true) : ∃ b, f = b ++ ".status".data := by
  rw [fEndsWith, List.isSuffixOf_iff_suffix] at h
  rcases h with ⟨t, ht⟩
  exact ⟨t, ht.symm⟩

theorem exportOldScan_mem (extractSrc : String → Option (List String))
    (mmsDir : String) (dir : List FName)
    (statusLines : FName → List (List Char)) (blobOf : FName → Option Blob)
    (l : List FName) (es : List (FName × RehydratedEntry))
    (hrun : exportOldScan extractSrc mmsDir dir statusLines blobOf l = some es)
    (b : FName) (e : RehydratedEntry) (hmem : (b, e) ∈ es) :
    ((b ++ ".status".data) ∈ dir ∧ (b ++ ".headers".data) ∈ dir ∧
      2 ≤ attachmentCount dir b) ∧
    rehydrateEntry extractSrc mmsDir (String.mk b) (statusLines b) (blobOf b)
      = some e := by
  induction l generalizing es with
  | nil =>
    rw [exportOldScan] at hrun
    cases hrun
    cases hmem
  | cons f rest ih =>
    rw [exportOldScan] at hrun
    by_cases hcond : fEndsWith f ".status".data = true ∧
        (dropStatusSuffix f ++ ".headers".data) ∈ dir ∧
        2 ≤ attachmentCount dir (dropStatusSuffix f) ∧
        (dropStatusSuffix f ++ ".status".data) ∈ dir
    · rw [if_pos hcond] at hrun
      cases hre : rehydrateEntry extractSrc mmsDir (String.mk (dropStatusSuffix f))
          (statusLines (dropStatusSuffix f)) (blobOf (dropStatusSuffix f)) with
      | none => rw [hre] at hrun; cases hrun
      | some e0 =>
        rw [hre] at hrun
        cases hsc : exportOldScan extractSrc mmsDir dir statusLines blobOf rest with
        | none => rw [hsc] at hrun; cases hrun
        | some es2 =>
          rw [hsc] at hrun
          cases hrun
          rcases List.mem_cons.mp hmem with hhead | htail
          · have hb : b = dropStatusSuffix f := congrArg Prod.fst hhead
            have he : e = e0 := congrArg Prod.snd hhead
            subst hb
            subst he
            exact ⟨⟨hcond.2.2.2, hcond.2.1, hcond.2.2.1⟩, hre⟩
          · exact ih es2 hsc htail
    · rw [if_neg hcond] at hrun
      exact ih es hrun hmem

theorem exportOldScan_complete (extractSrc : String → Option (List String))
    (mmsDir : String) (dir : List FName)
    (statusLines : FName → List (List Char)) (blobOf : FName → Option Blob)
    (l : List FName) (es : List (FName × RehydratedEntry))
    (hrun : exportOldScan extractSrc mmsDir dir statusLines blobOf l = some es)
    (b : FName) (hl : (b ++ ".status".data) ∈ l)
    (hh : (b ++ ".headers".data) ∈ dir) (hc : 2 ≤ attachmentCount dir b)
    (hd : (b ++ ".status".data) ∈ dir) :
    ∃ e, (b, e) ∈ es := by
  induction l generalizing es with
  | nil => cases hl
  | cons f rest ih =>
    rw [exportOldScan] at hrun
    rcases List.mem_cons.mp hl with hf | hrest
    · have hb : dropStatusSuffix f = b := by
        rw [← hf]
        exact dropStatusSuffix_append b
      have hcond : fEndsWith f ".status".data = true ∧
          (dropStatusSuffix f ++ ".headers".data) ∈ dir ∧
          2 ≤ attachmentCount dir (dropStatusSuffix f) ∧
          (dropStatusSuffix f ++ ".status".data) ∈ dir := by
        rw [hb, ← hf]
        exact ⟨hf ▸ fEndsWith_append_status b, hh, hc, hd⟩
      rw [if_pos hcond] at hrun
      cases hre : rehydrateEntry extractSrc mmsDir (String.mk (dropStatusSuffix f))
          (statusLines (dropStatusSuffix f)) (blobOf (dropStatusSuffix f)) with
      | none => rw [hre] at hrun; cases hrun
      | some e0 =>
        rw [hre] at hrun
        cases hsc : exportOldScan extractSrc mmsDir dir statusLines blobOf rest with
        | none => rw [hsc] at hrun; cases hrun
        | some es2 =>
          rw [hsc] at hrun
          cases hrun
          exact ⟨e0, by rw [← hb]; exact List.mem_cons_self _ _⟩
    · by_cases hcond : fEndsWith f ".status".data = true ∧
          (dropStatusSuffix f ++ ".headers".data) ∈ dir ∧
          2 ≤ attachmentCount dir (dropStatusSuffix f) ∧
          (dropStatusSuffix f ++ ".status".data) ∈ dir
      · rw [if_pos hcond] at hrun
        cases hre : rehydrateEntry extractSrc mmsDir (String.mk (dropStatusSuffix f))
            (statusLines (dropStatusSuffix f)) (blobOf (dropStatusSuffix f)) with
        | none => rw [hre] at hrun; cases hrun
        | some e0 =>
          rw [hre] at hrun
          cases hsc : exportOldScan extractSrc mmsDir dir statusLines blobOf rest with
          | none => rw [hsc] at hrun; cases hrun
          | some es2 =>
            rw [hsc] at hrun
            cases hrun
            rcases ih es2 hsc hrest with ⟨e, he⟩
            exact ⟨e, List.mem_cons_of_mem _ he⟩
      · rw [if_neg hcond] at hrun
        exact ih es hrun hrest

/-- C8, amended.  Provided the scan completes — no selected token's blob
decode raises inside the shared parts loop — startup rehydration
republishes exactly the tokens whose `.status` file is present together
with a `.headers` companion and at least two attachment files; each
republished entry recovers `state` and `date` from the status file and
sender, delivery report, SMIL text and attachment content-id references
from the decoded raw blob (fields stay `None` when the blob file is
absent); tokens failing the companion-file test are skipped without error.
When a selected blob's processing raises, the uncaught exception aborts
`export_old_messages` before its export loop, so nothing at all is
republished (the counterexample). -/
theorem c8_rehydration (extractSrc : String → Option (List String))
    (mmsDir : String) (dir : List FName)
    (statusLines : FName → List (List Char)) (blobOf : FName → Option Blob)
    (entries : List (FName × RehydratedEntry))
    (hrun : export_old_messages extractSrc mmsDir dir statusLines blobOf =
      some entries) :
    (∀ b : FName, (∃ e, (b, e) ∈ entries) ↔
      ((b ++ ".status".data) ∈ dir ∧ (b ++ ".headers".data) ∈ dir ∧
        2 ≤ attachmentCount dir b)) ∧
    (∀ b e, (b, e) ∈ entries →
      rehydrateEntry extractSrc mmsDir (String.mk b) (statusLines b) (blobOf b)
        = some e) := by
  rw [export_old_messages] at hrun
  constructor
  · intro b
    constructor
    · rintro ⟨e, he⟩
      exact (exportOldScan_mem extractSrc mmsDir dir statusLines blobOf dir
        entries hrun b e he).1
    · rintro ⟨hs, hh, hc⟩
      exact exportOldScan_complete extractSrc mmsDir dir statusLines blobOf dir
        entries hrun b hs hh hc hs
  · intro b e he
    exact (exportOldScan_mem extractSrc mmsDir dir statusLines blobOf dir
      entries hrun b e he).2

/-- A storage directory holding a complete, healthy token `t1` and a
selected token `t3` whose raw blob starts with a non-SMIL part — exactly
what `process_mms_content` itself leaves behind when it writes the blob,
headers, status and attachment files before raising in its own parts
loop. -/
def crashedRehydrationDir : List FName :=
  ["t1.status".data, "t1.headers".data, "t1.attachment.0".data,
   "t1.attachment.1".data, "t3.status".data, "t3.headers".data,
   "t3.attachment.0".data, "t3.attachment.1".data]

/-- C8, counterexample to the claim as stated: token `t1` has a status
file, a headers companion and two attachments — the claim says it must be
republished — but scanning the directory also selects `t3`, whose blob's
first decoded part is not SMIL; the parts loop subscripts the integer
`smil_src` (`ofono_push_notification.py:174`, `TypeError`), the exception
aborts the whole scan, and no token (not even `t1`) is republished. -/
theorem c8_counterexample :
    export_old_messages (fun _ => none) "/mms" crashedRehydrationDir
      (fun _ => ["state=received".data, "date=2024".data])
      (fun b => if b = "t3".data
        then some { deliveryReport := false, fromHeader := "555"
                  , parts := [{ content_type := "image/jpeg", data := "d" },
                              { content_type := "image/jpeg", data := "e" }] }
        else none) = none ∧
    ("t1".data ++ ".status".data) ∈ crashedRehydrationDir ∧
    ("t1".data ++ ".headers".data) ∈ crashedRehydrationDir ∧
    2 ≤ attachmentCount crashedRehydrationDir "t1".data := by
  decide

/-- A sample storage directory: token `t1` has status, headers and two
attachment files; token `t2` has only a status file. -/
def sampleRehydrationDir : List FName :=
  ["t1.status".data, "t1.headers".data, "t1.attachment.0".data,
   "t1.attachment.1".data, "t2.status".data]

def sampleRehydrationEntries : List (FName × RehydratedEntry) :=
  [("t1".data,
    { state := some "received", date := some "2024", sender := none
    , delivery := none, smil := none, attachments := [] })]

/-- C8, witness: scanning the sample directory republishes `t1` (whose
status lines give `state=received`, `date=2024`) and skips `t2`. -/
theorem c8_rehydration_witness :
    (∃ e, (("t1".data : FName), e) ∈ sampleRehydrationEntries) ∧
    (¬ ∃ e, (("t2".data : FName), e) ∈ sampleRehydrationEntries) :=
  have h := c8_rehydration (fun _ => none) "/mms" sampleRehydrationDir
    (fun _ => ["state=received".data, "date=2024".data]) (fun _ => none)
    sampleRehydrationEntries (by decide)
  ⟨(h.1 "t1".data).mpr (by decide),
   fun hex => absurd ((h.1 "t2".data).mp hex).2.1 (by decide)⟩
